import Mathlib

/-!
Shallow embedding of `mattcl/aoc2023` (Advent of Code 2023 solutions).

The definitions below are translated from the Rust sources:
  * `aoc-plumbing/src/problem.rs` (the `Problem` trait and `Solution` struct),
  * `aoc-cli/src/cli.rs` (the macro-generated CLI dispatcher),
  * `day-009-mirage-maintenance/src/lib.rs`,
  * `day-015-lens-library/src/lib.rs`,
  * `day-017-clumsy-crucible/src/lib.rs`,
  * `day-018-lavaduct-lagoon/src/lib.rs`.

Machine integers (`i64`, `usize`, `u8`) are modelled as `Int`/`Nat`; the
programs only add, subtract, multiply, divide and take `% 256`, and no claim
depends on wrap-around, so no explicit `% 2^w` is needed except where the
source itself writes `% 256`.  Rust's truncating `i64` division is written
`Int.tdiv`.  Fallible operations return `Except`/`Option`.
-/

namespace AocPlumbing

/-- `Solution<T, G>` from `aoc-plumbing/src/problem.rs`: the pair of answers
for one day. -/
structure Solution (T G : Type) where
  part_one : T
  part_two : G
deriving Repr, DecidableEq

/-- `Solution::new`. -/
def Solution.new {T G : Type} (part_one : T) (part_two : G) : Solution T G :=
  ⟨part_one, part_two⟩

/-- Modelled from the spec: a minimal JSON value tree.  The `serde_json`
crate (not part of this repository) renders Rust values as JSON; the spec
says the `--json` output is the object `\x7b"part_one": ..., "part_two": ...\x7d`. -/
inductive Json where
  | str (s : String)
  | num (n : Int)
  | obj (fields : List (String × Json))

/-- Modelled from the spec: JSON string escaping for the renderer (only the
quote and backslash need escaping in the strings this program prints). -/
def jsonEscapeChar (c : Char) : String :=
  if c = '"' then "\\\"" else if c = '\\' then "\\\\" else String.singleton c

/-- Modelled from the spec: escape a string for JSON output. -/
def jsonEscape (s : String) : String :=
  String.join (s.data.map jsonEscapeChar)

mutual

/-- Modelled from the spec: render a JSON value to text, as
`serde_json::to_string` does for the values this program prints. -/
def Json.render : Json → String
  | .str s => "\"" ++ jsonEscape s ++ "\""
  | .num n => toString n
  | .obj fields => "\x7b" ++ Json.renderFields fields ++ "\x7d"

/-- Modelled from the spec: render the comma-separated fields of a JSON
object. -/
def Json.renderFields : List (String × Json) → String
  | [] => ""
  | [(k, v)] => "\"" ++ jsonEscape k ++ "\":" ++ Json.render v
  | (k, v) :: rest =>
      "\"" ++ jsonEscape k ++ "\":" ++ Json.render v ++ "," ++ Json.renderFields rest

end

/-- The `Display` impl for `Solution` (problem.rs lines 60-68), with the two
parts rendered by the given `Display` functions:
`write!(f, "part 1: \x7b\x7d\npart 2: \x7b\x7d", self.part_one, self.part_two)`. -/
def Solution.display {T G : Type} (dT : T → String) (dG : G → String)
    (s : Solution T G) : String :=
  "part 1: " ++ dT s.part_one ++ "\npart 2: " ++ dG s.part_two

/-- The derived `Serialize` impl for `Solution`: serde serializes a struct as
an object holding the fields, in declaration order, under their field names. -/
def Solution.toJson {T G : Type} (jT : T → Json) (jG : G → Json)
    (s : Solution T G) : Json :=
  Json.obj [("part_one", jT s.part_one), ("part_two", jG s.part_two)]

/-- The `Problem` trait (problem.rs lines 80-120).  `from_str` is the
`FromStr` impl; `liftErr` is the `From<<Self as FromStr>::Err>` conversion
into `ProblemError`; `part_one`/`part_two` take `&mut self`, modelled by
returning the updated state next to the answer. -/
structure ProblemImpl (Self ParseErr E P1 P2 : Type) where
  from_str : String → Except ParseErr Self
  liftErr : ParseErr → E
  part_one : Self → Except E (P1 × Self)
  part_two : Self → Except E (P2 × Self)

/-- `Problem::instance`: `Self::from_str(raw_input)`. -/
def ProblemImpl.instanceOf {Self ParseErr E P1 P2 : Type}
    (P : ProblemImpl Self ParseErr E P1 P2) (raw_input : String) :
    Except ParseErr Self :=
  P.from_str raw_input

/-- `Problem::solve`:
`let mut inst = Self::instance(raw_input)?; Ok(Solution::new(inst.part_one()?, inst.part_two()?))`,
with the `?` on `instance` performing the `From` conversion of the parse
error and the `&mut` state threaded explicitly. -/
def ProblemImpl.solve {Self ParseErr E P1 P2 : Type}
    (P : ProblemImpl Self ParseErr E P1 P2) (raw_input : String) :
    Except E (Solution P1 P2) :=
  match P.instanceOf raw_input with
  | .error e => .error (P.liftErr e)
  | .ok inst =>
    match P.part_one inst with
    | .error e => .error e
    | .ok (p1, inst1) =>
      match P.part_two inst1 with
      | .error e => .error e
      | .ok (p2, _) => .ok (Solution.new p1 p2)

end AocPlumbing

namespace AocCli

open AocPlumbing

/-- The days registered in the `generate_cli!` invocation at the bottom of
`aoc-cli/src/cli.rs` (lines 184-204): `(Trebuchet, 1)` through
`(LavaductLagoon, 18)`. -/
def registeredDays : List Nat :=
  [1, 2, 3, 4, 5, 6, 7, 8, 9, 10, 11, 12, 13, 14, 15, 16, 17, 18]

/-- The arguments of each generated per-day subcommand (`Solver<T>` in
cli.rs): an input file path and a `--json` flag. -/
structure SolverArgs where
  input : String
  json : Bool
deriving Repr, DecidableEq

/-- The dispatch of `Run::run` (cli.rs lines 107-123): the macro expands to a
match with one literal arm per registered day, each calling
`_run::<$name>(&self.input, self.json)`; we record which day's `_run` is
selected, `none` for the wildcard arm. -/
def runDispatch (day : Nat) : Option Nat :=
  match day with
  | 1 => some 1
  | 2 => some 2
  | 3 => some 3
  | 4 => some 4
  | 5 => some 5
  | 6 => some 6
  | 7 => some 7
  | 8 => some 8
  | 9 => some 9
  | 10 => some 10
  | 11 => some 11
  | 12 => some 12
  | 13 => some 13
  | 14 => some 14
  | 15 => some 15
  | 16 => some 16
  | 17 => some 17
  | 18 => some 18
  | _ => none

/-- The error produced by `_run` (cli.rs lines 153-171): an `anyhow` error
wrapped with a `.context(...)` string, either around the I/O error from
`std::fs::read_to_string` or around the day's solve error. -/
inductive RunError (E : Type) where
  | readFailed (context : String) (cause : String)
  | solveFailed (context : String) (cause : E)
deriving Repr

/-- The context string carried by a `RunError`. -/
def RunError.context {E : Type} : RunError E → String
  | .readFailed c _ => c
  | .solveFailed c _ => c

/-- `_run::<T>(input_file, json)` (cli.rs lines 153-171).  The filesystem
read is modelled by its result `readResult`; the printed lines are returned
next to the `Result`.  On success it prints one line: the JSON rendering of
the solution when `json` is set, its `Display` rendering otherwise. -/
def runDay {Self ParseErr E P1 P2 : Type}
    (P : ProblemImpl Self ParseErr E P1 P2)
    (dT : P1 → String) (dG : P2 → String)
    (jT : P1 → Json) (jG : P2 → Json)
    (readResult : Except String String) (json : Bool) :
    List String × Except (RunError E) Unit :=
  match readResult with
  | .error e => ([], .error (.readFailed "Could not read input file" e))
  | .ok input =>
    match P.solve input with
    | .error e => ([], .error (.solveFailed "Failed to solve" e))
    | .ok solution =>
      if json then
        ([(solution.toJson jT jG).render], .ok ())
      else
        ([solution.display dT dG], .ok ())

/-- `Run::run` (cli.rs lines 107-123): dispatch on the day number; a
registered day runs that day's `_run` (abstracted as `runner`), the wildcard
arm prints `"not implemented"` (quoted when `json` is set) and returns
`Ok(())`. -/
def runRun {Err : Type} (runner : Nat → List String × Except Err Unit)
    (day : Nat) (json : Bool) : List String × Except Err Unit :=
  match runDispatch day with
  | some d => runner d
  | none =>
    if json then
      (["\"not implemented\""], .ok ())
    else
      (["not implemented"], .ok ())

end AocCli

namespace Day9

/-- `process` (day-009 lib.rs lines 23-29): the list of differences of
consecutive elements, via `tuple_windows`. -/
def process : List Int → List Int
  | a :: b :: rest => (b - a) :: process (b :: rest)
  | _ => []

/-- `extrapolate` (day-009 lib.rs lines 31-37):
`(sequence[0] as i64 - diffs.x, sequence[sequence.len() - 1] as i64 + diffs.y)`.
The two indexing operations panic on an empty slice, modelled by `none`. -/
def extrapolate (sequence : List Int) (diffs : Int × Int) : Option (Int × Int) :=
  match sequence.head?, sequence.getLast? with
  | some first, some last => some (first - diffs.1, last + diffs.2)
  | _, _ => none

/-- `extrapolate_sequence` (day-009 lib.rs lines 39-48): recurse on the
difference list until it is all zeros, extrapolating on the way out. -/
def extrapolate_sequence (sequence : List Int) : Option (Int × Int) :=
  let new := process sequence
  if h : new.all (fun v => v = 0) then
    extrapolate sequence (0, 0)
  else
    (extrapolate_sequence new).bind (fun e => extrapolate sequence e)
termination_by sequence.length
decreasing_by
  have hne : process sequence ≠ [] := by
    intro hnil
    apply h
    show ((process sequence).all fun v => decide (v = 0)) = true
    rw [hnil]
    rfl
  have hlen : ∀ t : List Int, (process t).length = t.length - 1 := by
    intro t
    induction t with
    | nil => rfl
    | cons a t ih =>
      cases t with
      | nil => rfl
      | cons b r =>
        simp [process] at ih ⊢
        omega
  have h1 := hlen sequence
  have h2 : 1 ≤ (process sequence).length := by
    cases hp : process sequence with
    | nil => exact absurd hp hne
    | cons x xs => simp [hp]
  omega

/-- A token-level parse result: parsed value and remaining input. -/
def ParseResult (α : Type) : Type := Option (α × List Char)

/-- Modelled from the spec: the repetition part of nom's `separated_list1`
combinator (the `nom` crate is not part of this repository): repeatedly
parse a separator followed by an element, stopping at the first failure;
fuelled by the input length since each round must consume input. -/
def sepRest {α : Type} (p : List Char → ParseResult α)
    (sep : List Char → ParseResult Unit) :
    Nat → List Char → List α × List Char
  | 0, input => ([], input)
  | fuel + 1, input =>
    match sep input with
    | none => ([], input)
    | some (_, afterSep) =>
      match p afterSep with
      | none => ([], input)
      | some (a, rest) =>
        let (as, rem) := sepRest p sep fuel rest
        (a :: as, rem)

/-- Modelled from the spec: nom's `separated_list1` (used by
`parse_sequence`/`parse_sequences`, day-009 lib.rs lines 15-21): parse one
element, then separator-and-element repetitions; it fails unless at least
one element parses, so a successful parse yields a non-empty list. -/
def separated_list1 {α : Type} (sep : List Char → ParseResult Unit)
    (p : List Char → ParseResult α) (input : List Char) :
    ParseResult (List α) :=
  match p input with
  | none => none
  | some (a, rest) =>
    let (as, rem) := sepRest p sep rest.length rest
    some (a :: as, rem)

end Day9

namespace Day15

/-- `Op` (day-015 lib.rs lines 14-18). -/
inductive Op where
  | remove
  | assign (v : Nat)
deriving Repr, DecidableEq

/-- `Entry` (day-015 lib.rs lines 53-57): a label and a focal length. -/
structure Entry where
  label : String
  focal : Nat
deriving Repr, DecidableEq

/-- The hash loop of `parse_instruction` (day-015 lib.rs lines 41-43) and of
`from_str` (lines 159-162): `fold(0, |acc, ch| ((acc + ch) * 17) % 256)`
over the label's bytes. -/
def hashFold (bytes : List Nat) : Nat :=
  bytes.foldl (fun acc ch => ((acc + ch) * 17) % 256) 0

/-- `Instruction` (day-015 lib.rs lines 29-34), with the label kept as its
byte list. -/
structure Instruction where
  bucket : Nat
  labelBytes : List Nat
  op : Op
deriving Repr, DecidableEq

/-- The result of `parse_instruction` (day-015 lib.rs lines 36-51) for a
label with the given bytes: the `bucket` field is the `hashFold` of the
label's bytes. -/
def parse_instruction (labelBytes : List Nat) (op : Op) : Instruction :=
  ⟨hashFold labelBytes, labelBytes, op⟩

/-- `FxIndexMap::insert` on an insertion-ordered association list: an
existing key keeps its position and gets the new value, a new key is
appended. -/
def indexMapInsert (l : List (String × Entry)) (k : String) (v : Entry) :
    List (String × Entry) :=
  match l with
  | [] => [(k, v)]
  | (k', v') :: rest =>
    if k' = k then (k', v) :: rest else (k', v') :: indexMapInsert rest k v

/-- `FxIndexMap::shift_remove`: delete the entry with the given key, shifting
the later entries down (preserving their order). -/
def indexMapShiftRemove (l : List (String × Entry)) (k : String) :
    List (String × Entry) :=
  match l with
  | [] => []
  | (k', v') :: rest =>
    if k' = k then rest else (k', v') :: indexMapShiftRemove rest k

/-- `Bucket` (day-015 lib.rs lines 59-81), backed by an `FxIndexMap` (the
`indexmap` crate is not in this repository; its insertion-order semantics
are modelled by an ordered association list). -/
structure Bucket where
  values : List (String × Entry)
deriving Repr, DecidableEq

/-- The empty bucket (`Bucket::default`). -/
def Bucket.empty : Bucket := ⟨[]⟩

/-- `Bucket::insert`: `self.values.insert(entry.label, entry)`. -/
def Bucket.insert (b : Bucket) (entry : Entry) : Bucket :=
  ⟨indexMapInsert b.values entry.label entry⟩

/-- `Bucket::remove`: `self.values.shift_remove(label)`. -/
def Bucket.remove (b : Bucket) (label : String) : Bucket :=
  ⟨indexMapShiftRemove b.values label⟩

/-- The enumerated focal sum `Σ (idx + 1) * focal`, starting at index `i`,
shared shape of both `focal_sum` methods. -/
def weightedFocal (i : Nat) : List Entry → Nat
  | [] => 0
  | e :: rest => (i + 1) * e.focal + weightedFocal (i + 1) rest

/-- `Bucket::focal_sum` (day-015 lib.rs lines 73-80). -/
def Bucket.focal_sum (b : Bucket) : Nat :=
  weightedFocal 0 (b.values.map Prod.snd)

/-- `ListBucket` (day-015 lib.rs lines 84-112), backed by a `VecDeque`. -/
structure ListBucket where
  values : List Entry
deriving Repr, DecidableEq

/-- The empty list bucket (`ListBucket::default`). -/
def ListBucket.empty : ListBucket := ⟨[]⟩

/-- The body of `ListBucket::insert`: replace the first entry whose label
matches, else `push_back`. -/
def listInsertGo (l : List Entry) (entry : Entry) : List Entry :=
  match l with
  | [] => [entry]
  | v :: rest =>
    if v.label = entry.label then entry :: rest else v :: listInsertGo rest entry

/-- `ListBucket::insert` (day-015 lib.rs lines 90-96). -/
def ListBucket.insert (b : ListBucket) (entry : Entry) : ListBucket :=
  ⟨listInsertGo b.values entry⟩

/-- The body of `ListBucket::remove`: delete the first entry whose label
matches, else leave the list unchanged. -/
def listRemoveGo (l : List Entry) (label : String) : List Entry :=
  match l with
  | [] => []
  | v :: rest =>
    if v.label = label then rest else v :: listRemoveGo rest label

/-- `ListBucket::remove` (day-015 lib.rs lines 98-102). -/
def ListBucket.remove (b : ListBucket) (label : String) : ListBucket :=
  ⟨listRemoveGo b.values label⟩

/-- `ListBucket::focal_sum` (day-015 lib.rs lines 104-111). -/
def ListBucket.focal_sum (b : ListBucket) : Nat :=
  weightedFocal 0 b.values

/-- A bucket operation: the two mutations both bucket types expose. -/
inductive BOp where
  | ins (e : Entry)
  | rem (label : String)
deriving Repr, DecidableEq

/-- Apply a sequence of operations to a `Bucket`. -/
def applyBucket (b : Bucket) : List BOp → Bucket
  | [] => b
  | .ins e :: rest => applyBucket (b.insert e) rest
  | .rem l :: rest => applyBucket (b.remove l) rest

/-- Apply a sequence of operations to a `ListBucket`. -/
def applyListBucket (b : ListBucket) : List BOp → ListBucket
  | [] => b
  | .ins e :: rest => applyListBucket (b.insert e) rest
  | .rem l :: rest => applyListBucket (b.remove l) rest

/-- `HASHMap` (day-015 lib.rs lines 114-144). -/
structure HASHMap where
  buckets : List ListBucket
deriving Repr, DecidableEq

/-- `HASHMap::default` (day-015 lib.rs lines 119-125):
`vec![ListBucket::default(); 256]`. -/
def HASHMap.default : HASHMap :=
  ⟨List.replicate 256 ListBucket.empty⟩

/-- `HASHMap::insert` (day-015 lib.rs lines 128-130):
`self.buckets[bucket].insert(entry)`; the indexing panics when `bucket` is
out of bounds, modelled by `none`. -/
def HASHMap.insert (hm : HASHMap) (bucket : Nat) (entry : Entry) :
    Option HASHMap :=
  if h : bucket < hm.buckets.length then
    some ⟨hm.buckets.set bucket ((hm.buckets.get ⟨bucket, h⟩).insert entry)⟩
  else
    none

/-- `HASHMap::remove` (day-015 lib.rs lines 132-134):
`self.buckets[bucket].remove(label)`; the indexing panics when `bucket` is
out of bounds, modelled by `none`. -/
def HASHMap.remove (hm : HASHMap) (bucket : Nat) (label : String) :
    Option HASHMap :=
  if h : bucket < hm.buckets.length then
    some ⟨hm.buckets.set bucket ((hm.buckets.get ⟨bucket, h⟩).remove label)⟩
  else
    none

end Day15

namespace Day17

/-- `Orientation` (day-017 lib.rs lines 10-14). -/
inductive Orientation where
  | horizontal
  | vertical
deriving Repr, DecidableEq

/-- `Location` from `aoc_std` (not in this repository): a row/column pair. -/
structure Location where
  row : Nat
  col : Nat
deriving Repr, DecidableEq

/-- `Node` (day-017 lib.rs lines 16-20). -/
structure Node where
  orientation : Orientation
  location : Location
deriving Repr, DecidableEq

/-- `Node::default` (day-017 lib.rs lines 22-29): horizontal at the default
location `(0, 0)`. -/
def Node.start : Node := ⟨.horizontal, ⟨0, 0⟩⟩

/-- `Grid<u8>` from `aoc_std` (not in this repository): a rectangular grid of
costs, modelled as rows of cells. -/
structure Grid where
  locations : List (List Nat)
deriving Repr, DecidableEq

/-- Grid height: the number of rows. -/
def Grid.height (g : Grid) : Nat := g.locations.length

/-- Grid width: the length of the first row. -/
def Grid.width (g : Grid) : Nat := (g.locations.headD []).length

/-- Cell access `grid.locations[row][col]`. -/
def Grid.cell (g : Grid) (row col : Nat) : Nat :=
  (g.locations.getD row []).getD col 0

/-- `Blocks` (day-017 lib.rs lines 31-34). -/
structure Blocks where
  grid : Grid
deriving Repr, DecidableEq

/-- An accumulating map over run lengths, the shape shared by the four
`(min..=max_side).map(|i| \x7b cost += cell; (node, cost) \x7d)` iterators in
`Blocks::horizontal`/`Blocks::vertical`. -/
def scanCosts (cost0 : Nat) (cellCost : Nat → Nat) (mk : Nat → Node) :
    List Nat → List (Node × Nat)
  | [] => []
  | i :: rest =>
    let c := cost0 + cellCost i
    (mk i, c) :: scanCosts c cellCost mk rest

/-- `Blocks::horizontal` (day-017 lib.rs lines 37-80): the reachable nodes
left and right of `start` with run lengths between `min` and `max`, each with
the accumulated cost of the cells crossed. -/
def Blocks.horizontal (b : Blocks) (start : Location) (min max : Nat) :
    List (Node × Nat) :=
  let costWest0 :=
    ((List.range' 1 (Nat.min min (start.col + 1) - 1)).map
      (fun i => b.grid.cell start.row (start.col - i))).sum
  let costEast0 :=
    ((List.range' (start.col + 1)
        (Nat.min (start.col + min) b.grid.width - (start.col + 1))).map
      (fun i => b.grid.cell start.row i)).sum
  let maxWest := Nat.min max start.col
  let maxEast := Nat.min max (b.grid.width - 1 - start.col)
  scanCosts costEast0 (fun i => b.grid.cell start.row (start.col + i))
      (fun i => ⟨.horizontal, ⟨start.row, start.col + i⟩⟩)
      (List.range' min (maxEast + 1 - min))
    ++ scanCosts costWest0 (fun i => b.grid.cell start.row (start.col - i))
      (fun i => ⟨.horizontal, ⟨start.row, start.col - i⟩⟩)
      (List.range' min (maxWest + 1 - min))

/-- `Blocks::vertical` (day-017 lib.rs lines 82-125): the reachable nodes
above and below `start` with run lengths between `min` and `max`. -/
def Blocks.vertical (b : Blocks) (start : Location) (min max : Nat) :
    List (Node × Nat) :=
  let costNorth0 :=
    ((List.range' 1 (Nat.min min (start.row + 1) - 1)).map
      (fun i => b.grid.cell (start.row - i) start.col)).sum
  let costSouth0 :=
    ((List.range' (start.row + 1)
        (Nat.min (start.row + min) b.grid.height - (start.row + 1))).map
      (fun i => b.grid.cell i start.col)).sum
  let maxNorth := Nat.min max start.row
  let maxSouth := Nat.min max (b.grid.height - 1 - start.row)
  scanCosts costSouth0 (fun i => b.grid.cell (start.row + i) start.col)
      (fun i => ⟨.vertical, ⟨start.row + i, start.col⟩⟩)
      (List.range' min (maxSouth + 1 - min))
    ++ scanCosts costNorth0 (fun i => b.grid.cell (start.row - i) start.col)
      (fun i => ⟨.vertical, ⟨start.row - i, start.col⟩⟩)
      (List.range' min (maxNorth + 1 - min))

/-- Remove and return the leftmost minimum-cost element of the frontier. -/
def pickMin : List (Nat × Node) → Option ((Nat × Node) × List (Nat × Node))
  | [] => none
  | x :: rest =>
    match pickMin rest with
    | none => some (x, [])
    | some (m, rem) =>
      if x.1 ≤ m.1 then some (x, rest) else some (m, x :: rem)

/-- Modelled from the spec: `aoc_std::pathing::dijkstra::bucket_dijkstra`
(not in this repository), a Dijkstra shortest-path search; the mutable edge
closure's captured state (the `first` flag) is threaded as `st`, and the
loop is fuelled. -/
def dijkstraLoop (edges : Bool → Node → Bool × List (Node × Nat))
    (isGoal : Node → Bool) :
    Nat → List (Nat × Node) → List Node → Bool → Option Nat
  | 0, _, _, _ => none
  | fuel + 1, frontier, visited, st =>
    match pickMin frontier with
    | none => none
    | some ((cost, node), rest) =>
      if isGoal node then some cost
      else if visited.contains node then
        dijkstraLoop edges isGoal fuel rest visited st
      else
        let (st2, succs) := edges st node
        dijkstraLoop edges isGoal fuel
          (rest ++ succs.map (fun p => (cost + p.2, p.1)))
          (node :: visited) st2

/-- `Blocks::minimize` (day-017 lib.rs lines 127-153): run the Dijkstra
search from the default node to the bottom-right corner, the edge closure
producing both orientations on the first expansion and the perpendicular
orientation afterwards; `result.cost().unwrap_or_default()`. -/
def Blocks.minimize (b : Blocks) (min max : Nat) : Nat :=
  let endLoc : Location := ⟨b.grid.height - 1, b.grid.width - 1⟩
  let edges := fun (first : Bool) (node : Node) =>
    if first then
      (false, b.horizontal node.location min max ++ b.vertical node.location min max)
    else if node.orientation = Orientation.horizontal then
      (false, b.vertical node.location min max)
    else
      (false, b.horizontal node.location min max)
  let fuel := (2 * b.grid.height * b.grid.width + 2) * (2 * (max + 2)) + 2
  (dijkstraLoop edges (fun n => n.location == endLoc) fuel
    [(0, Node.start)] [] true).getD 0

/-- One thread of the `thread::spawn` model: a pure computation whose value
is fixed at spawn time (the closure captures only the shared immutable
`Arc<Blocks>`) and an abstract amount of remaining work. -/
structure ThreadJob (β : Type) where
  work : Nat
  value : β
deriving Repr, DecidableEq

/-- Run one scheduling step of a thread: one unit of its work. -/
def ThreadJob.step {β : Type} (t : ThreadJob β) : ThreadJob β :=
  { t with work := t.work - 1 }

/-- Run an OS schedule over two threads: each schedule entry lets one of the
two threads step.  The threads share no mutable state, so a step changes
only the stepped thread. -/
def runSched {β γ : Type} (t1 : ThreadJob β) (t2 : ThreadJob γ) :
    List Bool → ThreadJob β × ThreadJob γ
  | [] => (t1, t2)
  | pick :: rest =>
    if pick then runSched t1.step t2 rest else runSched t1 t2.step rest

/-- `JoinHandle::join`: block until the thread finishes and return its
value. -/
def ThreadJob.join {β : Type} (t : ThreadJob β) : β := t.value

/-- The spawn/join pattern of `ClumsyCrucible::from_str` (day-017 lib.rs
lines 179-192): spawn a thread per part over the shared input, run an
arbitrary OS schedule, then join both. -/
def spawnJoin2 {α β γ : Type} (f : α → β) (g : α → γ) (x : α)
    (w1 w2 : Nat) (sched : List Bool) : β × γ :=
  let (t1, t2) := runSched ⟨w1, f x⟩ ⟨w2, g x⟩ sched
  (t1.join, t2.join)

/-- The digit conversion of `ClumsyCrucible::from_str`:
`ch.to_digit(10).unwrap_or_default() as u8`. -/
def digitVal (ch : Char) : Nat :=
  if ch.isDigit then ch.toNat - 48 else 0

/-- The grid construction of `ClumsyCrucible::from_str` (day-017 lib.rs
lines 166-181): split the trimmed input into lines and each line into digit
values. -/
def parseGrid (s : String) : Grid :=
  ⟨(s.trim.splitOn "\n").map (fun l => l.data.map digitVal)⟩

/-- `ClumsyCrucible` (day-017 lib.rs lines 156-160). -/
structure ClumsyCrucible where
  p1 : Nat
  p2 : Nat
deriving Repr, DecidableEq

/-- `ClumsyCrucible::from_str` (day-017 lib.rs lines 162-196): build the
shared `Blocks`, spawn one thread per part (`minimize(1, 3)` and
`minimize(4, 10)`), join both, and store the pair.  `w1`, `w2` and `sched`
model the OS scheduling of the two threads. -/
def ClumsyCrucible.from_str (s : String) (w1 w2 : Nat) (sched : List Bool) :
    Except String ClumsyCrucible :=
  let blocks : Blocks := ⟨parseGrid s⟩
  let (p1, p2) :=
    spawnJoin2 (fun b => Blocks.minimize b 1 3) (fun b => Blocks.minimize b 4 10)
      blocks w1 w2 sched
  .ok ⟨p1, p2⟩

/-- `Problem::part_one` for `ClumsyCrucible` (day-017 lib.rs lines 207-209):
`Ok(self.p1)`. -/
def ClumsyCrucible.part_one (c : ClumsyCrucible) : Except String Nat :=
  .ok c.p1

/-- `Problem::part_two` for `ClumsyCrucible` (day-017 lib.rs lines 211-213):
`Ok(self.p2)`. -/
def ClumsyCrucible.part_two (c : ClumsyCrucible) : Except String Nat :=
  .ok c.p2

end Day17

namespace Day18

/-- The four values of `aoc_std::directions::Relative` used by day 18. -/
inductive Relative where
  | up
  | down
  | left
  | right
deriving Repr, DecidableEq

/-- `aoc_std::geometry::Point2D<i64>` (not in this repository): an x/y
pair. -/
structure Point2D where
  x : Int
  y : Int
deriving Repr, DecidableEq

/-- `Point2D::default`: the origin. -/
def Point2D.origin : Point2D := ⟨0, 0⟩

/-- `Instruction` (day-018 lib.rs lines 42-46). -/
structure Instruction where
  direction : Relative
  amount : Int
deriving Repr, DecidableEq

/-- One iteration of the loop in `make_veritices` (day-018 lib.rs lines
77-84): move `cur` by `amount` in `direction`. -/
def step (cur : Point2D) (inst : Instruction) : Point2D :=
  match inst.direction with
  | .up => { cur with y := cur.y + inst.amount }
  | .down => { cur with y := cur.y - inst.amount }
  | .left => { cur with x := cur.x - inst.amount }
  | .right => { cur with x := cur.x + inst.amount }

/-- The loop of `LavaductLagoon::make_veritices` (day-018 lib.rs lines
69-90), starting from position `cur` with accumulated perimeter `perim`:
after each move push the new position and add the move's `amount` to the
perimeter. -/
def make_veritices_go (cur : Point2D) (perim : Int) :
    List Instruction → Int × List Point2D
  | [] => (perim, [])
  | inst :: rest =>
    let c := step cur inst
    let (p, vs) := make_veritices_go c (perim + inst.amount) rest
    (p, c :: vs)

/-- `LavaductLagoon::make_veritices`: the perimeter and the vertex list,
starting from `Point2D::default()` with perimeter `0`. -/
def make_veritices (instructions : List Instruction) : Int × List Point2D :=
  make_veritices_go Point2D.origin 0 instructions

/-- The `tuple_windows` shoelace sum of `area_from_verticies` (day-018 lib.rs
lines 101-109): `Σ (a.y * b.x - a.x * b.y)` over consecutive pairs. -/
def shoelaceSum : List Point2D → Int
  | a :: b :: rest => (a.y * b.x - a.x * b.y) + shoelaceSum (b :: rest)
  | _ => 0

/-- `LavaductLagoon::area_from_verticies`: the absolute shoelace sum halved
(`i64` division truncates; the dividend is non-negative). -/
def area_from_verticies (verticies : List Point2D) : Int :=
  Int.tdiv ((shoelaceSum verticies).natAbs : Int) 2

/-- `LavaductLagoon::dig` (day-018 lib.rs lines 92-98):
`let inside = area - perimeter / 2 + 1; perimeter + inside`. -/
def dig (instructions : List Instruction) : Int :=
  let pv := make_veritices instructions
  let area := area_from_verticies pv.2
  let inside := area - Int.tdiv pv.1 2 + 1
  pv.1 + inside

/-- `LavaductLagoon` (day-018 lib.rs lines 63-66): the parsed pairs of a
plain instruction and its hex-decoded instruction. -/
structure LavaductLagoon where
  instructions : List (Instruction × Instruction)

/-- `Problem::part_one` for `LavaductLagoon` (day-018 lib.rs lines 130-132):
`Ok(self.dig(self.instructions.iter().map(|(a, _)| a)))`. -/
def LavaductLagoon.part_one (l : LavaductLagoon) : Except String Int :=
  .ok (dig (l.instructions.map Prod.fst))

/-- `Problem::part_two` for `LavaductLagoon` (day-018 lib.rs lines 134-136):
`Ok(self.dig(self.instructions.iter().map(|(_, b)| b)))`. -/
def LavaductLagoon.part_two (l : LavaductLagoon) : Except String Int :=
  .ok (dig (l.instructions.map Prod.snd))

/-- The displacement of a single instruction (the claim's "moves"). -/
def moveDelta (inst : Instruction) : Point2D :=
  step Point2D.origin inst

/-- The sum of all moves; the traced loop is closed exactly when this is the
origin. -/
def movesSum (instructions : List Instruction) : Point2D :=
  instructions.foldl (fun acc i => step acc i) Point2D.origin

/-- Spec-side definition: the positions visited after each instruction,
starting from `cur`. -/
def positionsFrom (cur : Point2D) : List Instruction → List Point2D
  | [] => []
  | inst :: rest => step cur inst :: positionsFrom (step cur inst) rest

/-- Spec-side definition: the traced path of the dig, origin included. -/
def tracedPath (instructions : List Instruction) : List Point2D :=
  Point2D.origin :: positionsFrom Point2D.origin instructions

/-- Spec-side definition: the boundary length `p` of the claim, the sum of
the instruction amounts. -/
def perimeterSpec (instructions : List Instruction) : Int :=
  (instructions.map Instruction.amount).sum

/-- Spec-side definition: the claim's `A`, half the absolute value of the
shoelace sum over consecutive vertices of the traced path. -/
def areaSpec (instructions : List Instruction) : Int :=
  Int.tdiv ((shoelaceSum (tracedPath instructions)).natAbs : Int) 2

end Day18

/-! Concrete fixtures used by witnesses. -/

/-- A concrete `Problem` implementation over `Nat` state, used to exercise
the generic trait contract at concrete inputs. -/
def toyProblem : AocPlumbing.ProblemImpl Nat String String Nat Nat where
  from_str := fun s => if s = "ok" then .ok 3 else .error "bad"
  liftErr := fun e => "parse: " ++ e
  part_one := fun n => .ok (n + 1, n * 2)
  part_two := fun n => .ok (n + 10, n)

/-- The day-18 example input from the crate's tests, as parsed part-one
instructions. -/
def day18Example : List Day18.Instruction :=
  [⟨.right, 6⟩, ⟨.down, 5⟩, ⟨.left, 2⟩, ⟨.down, 2⟩, ⟨.right, 2⟩, ⟨.down, 2⟩,
   ⟨.left, 5⟩, ⟨.up, 2⟩, ⟨.left, 1⟩, ⟨.up, 2⟩, ⟨.right, 2⟩, ⟨.up, 3⟩,
   ⟨.left, 2⟩, ⟨.up, 2⟩]

/-- A single-character token parser, used to exercise `separated_list1` at a
concrete input. -/
def charP (c : Char) : List Char → Day9.ParseResult Char := fun input =>
  match input with
  | x :: rest => if x = c then some (x, rest) else none
  | [] => none

/-- A comma separator parser, used to exercise `separated_list1` at a
concrete input. -/
def commaP : List Char → Day9.ParseResult Unit := fun input =>
  match input with
  | ',' :: rest => some ((), rest)
  | _ => none

/-! Theorems. -/

section Theorems

open AocPlumbing AocCli

/-- C1: for every `Problem` implementation and raw input, `solve` first
builds the instance via `instance` (which is `FromStr::from_str`), then runs
`part_one`, then `part_two` on that same (threaded) instance, returning
`Solution::new(p1, p2)`; a parse error is lifted and returned, and an error
from either part is returned, with no `Solution` produced. -/
theorem problem_solve_pipeline {Self ParseErr E P1 P2 : Type}
    (P : ProblemImpl Self ParseErr E P1 P2) (raw : String) :
    P.instanceOf raw = P.from_str raw ∧
    (∀ e, P.from_str raw = .error e → P.solve raw = .error (P.liftErr e)) ∧
    (∀ inst e, P.from_str raw = .ok inst → P.part_one inst = .error e →
      P.solve raw = .error e) ∧
    (∀ inst p1 inst1 e, P.from_str raw = .ok inst →
      P.part_one inst = .ok (p1, inst1) → P.part_two inst1 = .error e →
      P.solve raw = .error e) ∧
    (∀ sol, P.solve raw = .ok sol ↔
      ∃ inst p1 inst1 p2 inst2, P.from_str raw = .ok inst ∧
        P.part_one inst = .ok (p1, inst1) ∧ P.part_two inst1 = .ok (p2, inst2) ∧
        sol = Solution.new p1 p2) := by
  refine ⟨rfl, ?_, ?_, ?_, ?_⟩
  · intro e h
    simp [ProblemImpl.solve, ProblemImpl.instanceOf, h]
  · intro inst e h1 h2
    simp [ProblemImpl.solve, ProblemImpl.instanceOf, h1, h2]
  · intro inst p1 inst1 e h1 h2 h3
    simp [ProblemImpl.solve, ProblemImpl.instanceOf, h1, h2, h3]
  · intro sol
    constructor
    · intro h
      rw [ProblemImpl.solve, ProblemImpl.instanceOf] at h
      split at h
      · simp at h
      · rename_i inst hf
        split at h
        · simp at h
        · rename_i p1 inst1 h1
          split at h
          · simp at h
          · rename_i p2 inst2 h2
            simp at h
            exact ⟨inst, p1, inst1, p2, inst2, hf, h1, h2, h.symm⟩
    · rintro ⟨inst, p1, inst1, p2, inst2, hf, h1, h2, rfl⟩
      simp [ProblemImpl.solve, ProblemImpl.instanceOf, hf, h1, h2]

/-- Witness for C1: the pipeline at a parse success and a parse failure of
the concrete `toyProblem`. -/
theorem problem_solve_pipeline_witness :
    toyProblem.solve "ok" = .ok (AocPlumbing.Solution.new 4 16) ∧
    toyProblem.solve "x" = .error "parse: bad" := by
  constructor
  · exact ((problem_solve_pipeline toyProblem "ok").2.2.2.2 _).mpr
      ⟨3, 4, 6, 16, 6, rfl, rfl, rfl, rfl⟩
  · exact (problem_solve_pipeline toyProblem "x").2.1 "bad" rfl

/-- The macro-generated `Run::run` dispatch, characterized by membership in
the registered-day list. -/
theorem runDispatch_eq (day : Nat) :
    runDispatch day = if day ∈ registeredDays then some day else none := by
  unfold runDispatch
  split <;> simp_all [registeredDays]

/-- C2 counterexample: day 19 is within 1..25 but the `generate_cli!`
invocation registers no subcommand for it, and the `run` dispatch sends it to
the wildcard arm, so the claim fails at day 19. -/
theorem cli_day19_unregistered :
    1 ≤ 19 ∧ 19 ≤ 25 ∧ 19 ∉ AocCli.registeredDays ∧
      AocCli.runDispatch 19 = none := by
  refine ⟨by decide, by decide, by decide, rfl⟩

/-- C2 (amended): the CLI exposes one subcommand per day for every day
numbered 1 through 18 (each accepting an input file path and a `--json`
flag, the fields of `SolverArgs`), and the generic `run` subcommand
dispatches every day number from 1 through 18 to that day's solver; days 19
through 25 are not registered. -/
theorem cli_registered_days_dispatch (d : Nat) (h1 : 1 ≤ d) (h2 : d ≤ 18) :
    d ∈ AocCli.registeredDays ∧ AocCli.runDispatch d = some d ∧
    (∀ (Err : Type) (runner : Nat → List String × Except Err Unit) (json : Bool),
      AocCli.runRun runner d json = runner d) := by
  interval_cases d <;>
    exact ⟨by decide, rfl, fun Err runner json => rfl⟩

/-- Witness for C2 (amended): day 7 is registered and dispatched to its own
runner. -/
theorem cli_registered_days_dispatch_witness :
    7 ∈ AocCli.registeredDays ∧ AocCli.runDispatch 7 = some 7 ∧
    (∀ (Err : Type) (runner : Nat → List String × Except Err Unit) (json : Bool),
      AocCli.runRun runner 7 json = runner 7) :=
  cli_registered_days_dispatch 7 (by decide) (by decide)

/-- C3: for every day with no registered solver, `Run::run` prints
`"not implemented"` — the JSON rendering of the string when the `json` flag
is set, the bare text otherwise — and returns `Ok(())`. -/
theorem run_unregistered_not_implemented (day : Nat)
    (h : day ∉ AocCli.registeredDays) {Err : Type}
    (runner : Nat → List String × Except Err Unit) (json : Bool) :
    AocCli.runRun runner day json =
      (if json then ["\"not implemented\""] else ["not implemented"],
        Except.ok ()) ∧
    "\"not implemented\"" = (AocPlumbing.Json.str "not implemented").render := by
  have hd : AocCli.runDispatch day = none := by
    rw [runDispatch_eq, if_neg h]
  refine ⟨?_, rfl⟩
  rw [AocCli.runRun, hd]
  cases json <;> rfl

/-- Witness for C3: day 19 with and without the `json` flag. -/
theorem run_unregistered_not_implemented_witness :
    AocCli.runRun (fun d => (([] : List String), (Except.ok () : Except String Unit)))
      19 true = (["\"not implemented\""], Except.ok ()) ∧
    AocCli.runRun (fun d => (([] : List String), (Except.ok () : Except String Unit)))
      19 false = (["not implemented"], Except.ok ()) := by
  constructor
  · exact (run_unregistered_not_implemented 19 (by decide) _ true).1
  · exact (run_unregistered_not_implemented 19 (by decide) _ false).1

/-- C4: for every registered day and input, if reading the input file fails,
`_run` returns an error with context "Could not read input file"; if
`Problem::solve` fails, `_run` returns an error with context
"Failed to solve"; in both failure cases nothing is printed and the result
is the error. -/
theorem run_failure_contexts {Self ParseErr E P1 P2 : Type}
    (P : AocPlumbing.ProblemImpl Self ParseErr E P1 P2)
    (dT : P1 → String) (dG : P2 → String)
    (jT : P1 → AocPlumbing.Json) (jG : P2 → AocPlumbing.Json)
    (readResult : Except String String) (json : Bool) :
    (∀ e, readResult = .error e →
      AocCli.runDay P dT dG jT jG readResult json =
        ([], .error (.readFailed "Could not read input file" e)) ∧
      (AocCli.RunError.readFailed "Could not read input file" e :
          AocCli.RunError E).context = "Could not read input file") ∧
    (∀ input e, readResult = .ok input → P.solve input = .error e →
      AocCli.runDay P dT dG jT jG readResult json =
        ([], .error (.solveFailed "Failed to solve" e)) ∧
      (AocCli.RunError.solveFailed "Failed to solve" e :
          AocCli.RunError E).context = "Failed to solve") := by
  constructor
  · intro e h
    subst h
    exact ⟨rfl, rfl⟩
  · intro input e h1 h2
    subst h1
    refine ⟨?_, rfl⟩
    rw [AocCli.runDay]
    rw [h2]

/-- Witness for C4: the concrete `toyProblem` under a failed read and under a
failed solve. -/
theorem run_failure_contexts_witness :
    AocCli.runDay toyProblem toString toString
        (fun n => .num n) (fun n => .num n) (.error "enoent") false =
      ([], .error (.readFailed "Could not read input file" "enoent")) ∧
    AocCli.runDay toyProblem toString toString
        (fun n => .num n) (fun n => .num n) (.ok "x") true =
      ([], .error (.solveFailed "Failed to solve" "parse: bad")) := by
  constructor
  · exact ((run_failure_contexts toyProblem toString toString
      (fun n => .num n) (fun n => .num n) (.error "enoent") false).1
        "enoent" rfl).1
  · exact ((run_failure_contexts toyProblem toString toString
      (fun n => .num n) (fun n => .num n) (.ok "x") true).2
        "x" "parse: bad" rfl rfl).1

/-- C5: a `Solution` with parts `p1`, `p2` renders in plaintext as exactly
`"part 1: " ++ p1 ++ "\npart 2: " ++ p2`, serializes to a JSON object with
exactly the keys `part_one` and `part_two` bound to the two parts, and the
CLI prints the JSON form when the `json` flag is set and the plaintext form
otherwise. -/
theorem solution_output_format {T G : Type} (p1 : T) (p2 : G)
    (dT : T → String) (dG : G → String)
    (jT : T → AocPlumbing.Json) (jG : G → AocPlumbing.Json) :
    AocPlumbing.Solution.display dT dG (AocPlumbing.Solution.new p1 p2) =
      "part 1: " ++ dT p1 ++ "\npart 2: " ++ dG p2 ∧
    AocPlumbing.Solution.toJson jT jG (AocPlumbing.Solution.new p1 p2) =
      AocPlumbing.Json.obj [("part_one", jT p1), ("part_two", jG p2)] ∧
    (∀ {Self ParseErr E : Type}
        (P : AocPlumbing.ProblemImpl Self ParseErr E T G)
        (readResult : Except String String) (input : String)
        (sol : AocPlumbing.Solution T G),
      readResult = .ok input → P.solve input = .ok sol →
      AocCli.runDay P dT dG jT jG readResult true =
        ([(AocPlumbing.Solution.toJson jT jG sol).render], .ok ()) ∧
      AocCli.runDay P dT dG jT jG readResult false =
        ([AocPlumbing.Solution.display dT dG sol], .ok ())) := by
  refine ⟨rfl, rfl, ?_⟩
  intro Self ParseErr E P readResult input sol h1 h2
  subst h1
  constructor <;> simp [AocCli.runDay, h2]

/-- Witness for C5: the concrete `toyProblem` on input `"ok"`, printed in
both modes. -/
theorem solution_output_format_witness :
    AocCli.runDay toyProblem toString toString
        (fun n => .num n) (fun n => .num n) (.ok "ok") true =
      ([(AocPlumbing.Solution.toJson (fun n : Nat => AocPlumbing.Json.num n)
          (fun n : Nat => AocPlumbing.Json.num n)
          (AocPlumbing.Solution.new 4 16)).render], .ok ()) ∧
    AocCli.runDay toyProblem toString toString
        (fun n => .num n) (fun n => .num n) (.ok "ok") false =
      (["part 1: 4\npart 2: 16"], .ok ()) := by
  have h := (solution_output_format (4 : Nat) (16 : Nat) toString toString
      (fun n => .num n) (fun n => .num n)).2.2 toyProblem (.ok "ok") "ok"
      (AocPlumbing.Solution.new 4 16) rfl rfl
  exact ⟨h.1, h.2⟩

/-- The perimeter accumulator of `make_veritices` computes the sum of the
instruction amounts. -/
theorem make_veritices_go_fst (insts : List Day18.Instruction) :
    ∀ (cur : Day18.Point2D) (p : Int),
      (Day18.make_veritices_go cur p insts).1 = p + Day18.perimeterSpec insts := by
  induction insts with
  | nil =>
    intro cur p
    simp [Day18.make_veritices_go, Day18.perimeterSpec]
  | cons i rest ih =>
    intro cur p
    simp only [Day18.make_veritices_go, Day18.perimeterSpec, List.map_cons,
      List.sum_cons] at ih ⊢
    rw [ih]
    ring

/-- The vertex list of `make_veritices` is the traced position list. -/
theorem make_veritices_go_snd (insts : List Day18.Instruction) :
    ∀ (cur : Day18.Point2D) (p : Int),
      (Day18.make_veritices_go cur p insts).2 = Day18.positionsFrom cur insts := by
  induction insts with
  | nil =>
    intro cur p
    simp [Day18.make_veritices_go, Day18.positionsFrom]
  | cons i rest ih =>
    intro cur p
    simp only [Day18.make_veritices_go, Day18.positionsFrom] at ih ⊢
    rw [ih]

/-- Prepending the origin to a vertex list does not change the shoelace sum:
the extra window contributes `0 * x - 0 * y = 0`. -/
theorem shoelace_origin_cons (l : List Day18.Point2D) :
    Day18.shoelaceSum (Day18.Point2D.origin :: l) = Day18.shoelaceSum l := by
  cases l with
  | nil => rfl
  | cons b rest =>
    show (Day18.Point2D.origin.y * b.x - Day18.Point2D.origin.x * b.y) +
        Day18.shoelaceSum (b :: rest) = Day18.shoelaceSum (b :: rest)
    simp [Day18.Point2D.origin]

/-- C6: for every instruction sequence tracing a closed loop (moves summing
to zero), `dig` returns `p + (A - p/2 + 1)` where `p` is the sum of the
instruction amounts and `A` is half the absolute value of the shoelace sum
over consecutive vertices of the traced path; `part_one` and `part_two`
apply this same computation to the plain and hex-decoded instruction
streams. -/
theorem dig_shoelace_pick (instructions : List Day18.Instruction)
    (h : Day18.movesSum instructions = Day18.Point2D.origin) :
    Day18.dig instructions =
      Day18.perimeterSpec instructions +
        (Day18.areaSpec instructions -
          Int.tdiv (Day18.perimeterSpec instructions) 2 + 1) ∧
    (∀ l : Day18.LavaductLagoon,
      l.part_one = .ok (Day18.dig (l.instructions.map Prod.fst)) ∧
      l.part_two = .ok (Day18.dig (l.instructions.map Prod.snd))) := by
  refine ⟨?_, fun l => ⟨rfl, rfl⟩⟩
  simp only [Day18.dig, Day18.areaSpec, Day18.area_from_verticies,
    Day18.make_veritices, Day18.tracedPath, make_veritices_go_fst,
    make_veritices_go_snd, shoelace_origin_cons]
  ring

/-- Witness for C6: the crate's day-18 example instruction list (a closed
loop). -/
theorem dig_shoelace_pick_witness :
    Day18.movesSum day18Example = Day18.Point2D.origin ∧
    Day18.dig day18Example =
      Day18.perimeterSpec day18Example +
        (Day18.areaSpec day18Example -
          Int.tdiv (Day18.perimeterSpec day18Example) 2 + 1) :=
  ⟨by decide, (dig_shoelace_pick day18Example (by decide)).1⟩

/-- A scheduling step never changes the value a thread will produce: the
threads share no mutable state. -/
theorem runSched_value (sched : List Bool) :
    ∀ {β γ : Type} (t1 : Day17.ThreadJob β) (t2 : Day17.ThreadJob γ),
      (Day17.runSched t1 t2 sched).1.value = t1.value ∧
      (Day17.runSched t1 t2 sched).2.value = t2.value := by
  induction sched with
  | nil => intro β γ t1 t2; exact ⟨rfl, rfl⟩
  | cons pick rest ih =>
    intro β γ t1 t2
    cases pick
    · simpa [Day17.runSched, Day17.ThreadJob.step] using ih t1 t2.step
    · simpa [Day17.runSched, Day17.ThreadJob.step] using ih t1.step t2

/-- Spawning two pure computations over shared immutable data and joining
both yields the sequential pair, for every work split and OS schedule. -/
theorem spawnJoin2_eq {α β γ : Type} (f : α → β) (g : α → γ) (x : α)
    (w1 w2 : Nat) (sched : List Bool) :
    Day17.spawnJoin2 f g x w1 w2 sched = (f x, g x) := by
  have h := runSched_value sched (⟨w1, f x⟩ : Day17.ThreadJob β) ⟨w2, g x⟩
  rcases he : Day17.runSched (⟨w1, f x⟩ : Day17.ThreadJob β) ⟨w2, g x⟩ sched
    with ⟨t1, t2⟩
  rw [he] at h
  unfold Day17.spawnJoin2
  rw [he]
  exact Prod.ext h.1 h.2

/-- C7: day 17's construction runs `minimize(1, 3)` and `minimize(4, 10)` on
one thread each over the same immutable grid and joins both; for every work
split and OS schedule the stored pair equals the sequentially computed pair,
and `part_one`/`part_two` simply return the joined results. -/
theorem clumsy_crucible_thread_refinement (s : String) (w1 w2 : Nat)
    (sched : List Bool) :
    Day17.ClumsyCrucible.from_str s w1 w2 sched =
      .ok ⟨Day17.Blocks.minimize ⟨Day17.parseGrid s⟩ 1 3,
           Day17.Blocks.minimize ⟨Day17.parseGrid s⟩ 4 10⟩ ∧
    (∀ (w1' w2' : Nat) (sched' : List Bool),
      Day17.ClumsyCrucible.from_str s w1 w2 sched =
        Day17.ClumsyCrucible.from_str s w1' w2' sched') ∧
    (∀ c : Day17.ClumsyCrucible,
      c.part_one = .ok c.p1 ∧ c.part_two = .ok c.p2) := by
  refine ⟨?_, ?_, fun c => ⟨rfl, rfl⟩⟩
  · simp only [Day17.ClumsyCrucible.from_str, spawnJoin2_eq]
  · intro w1' w2' sched'
    simp only [Day17.ClumsyCrucible.from_str, spawnJoin2_eq]

/-- Inserting through the index map and through the list produce the same
entry sequence, given that every stored key is its entry's label. -/
theorem indexMapInsert_snd (e : Day15.Entry) :
    ∀ (l : List (String × Day15.Entry)), (∀ p ∈ l, p.1 = p.2.label) →
      (Day15.indexMapInsert l e.label e).map Prod.snd =
        Day15.listInsertGo (l.map Prod.snd) e := by
  intro l
  induction l with
  | nil => intro _; rfl
  | cons hd tl ih =>
    intro hl
    obtain ⟨k', v'⟩ := hd
    have hk : k' = v'.label := hl (k', v') (List.mem_cons_self _ _)
    have htl : ∀ p ∈ tl, p.1 = p.2.label :=
      fun p hp => hl p (List.mem_cons_of_mem _ hp)
    subst hk
    by_cases hcase : v'.label = e.label
    · simp [Day15.indexMapInsert, Day15.listInsertGo, hcase]
    · simp [Day15.indexMapInsert, Day15.listInsertGo, hcase, ih htl]

/-- Index-map insertion preserves the key-equals-label invariant. -/
theorem indexMapInsert_labels (e : Day15.Entry) :
    ∀ (l : List (String × Day15.Entry)), (∀ p ∈ l, p.1 = p.2.label) →
      ∀ p ∈ Day15.indexMapInsert l e.label e, p.1 = p.2.label := by
  intro l
  induction l with
  | nil =>
    intro _ p hp
    simp [Day15.indexMapInsert] at hp
    simp [hp]
  | cons hd tl ih =>
    intro hl p hp
    obtain ⟨k', v'⟩ := hd
    have hk : k' = v'.label := hl (k', v') (List.mem_cons_self _ _)
    have htl : ∀ q ∈ tl, q.1 = q.2.label :=
      fun q hq => hl q (List.mem_cons_of_mem _ hq)
    by_cases hcase : k' = e.label
    · simp [Day15.indexMapInsert, hcase] at hp
      rcases hp with hp | hp
      · simp [hp, hcase]
      · exact htl p hp
    · simp [Day15.indexMapInsert, hcase] at hp
      rcases hp with hp | hp
      · simp [hp, hk]
      · exact ih htl p hp

/-- Removing through the index map and through the list produce the same
entry sequence, given that every stored key is its entry's label. -/
theorem indexMapShiftRemove_snd (lab : String) :
    ∀ (l : List (String × Day15.Entry)), (∀ p ∈ l, p.1 = p.2.label) →
      (Day15.indexMapShiftRemove l lab).map Prod.snd =
        Day15.listRemoveGo (l.map Prod.snd) lab := by
  intro l
  induction l with
  | nil => intro _; rfl
  | cons hd tl ih =>
    intro hl
    obtain ⟨k', v'⟩ := hd
    have hk : k' = v'.label := hl (k', v') (List.mem_cons_self _ _)
    have htl : ∀ p ∈ tl, p.1 = p.2.label :=
      fun p hp => hl p (List.mem_cons_of_mem _ hp)
    subst hk
    by_cases hcase : v'.label = lab
    · simp [Day15.indexMapShiftRemove, Day15.listRemoveGo, hcase]
    · simp [Day15.indexMapShiftRemove, Day15.listRemoveGo, hcase, ih htl]

/-- Index-map removal preserves the key-equals-label invariant. -/
theorem indexMapShiftRemove_labels (lab : String) :
    ∀ (l : List (String × Day15.Entry)), (∀ p ∈ l, p.1 = p.2.label) →
      ∀ p ∈ Day15.indexMapShiftRemove l lab, p.1 = p.2.label := by
  intro l
  induction l with
  | nil => intro _ p hp; simp [Day15.indexMapShiftRemove] at hp
  | cons hd tl ih =>
    intro hl p hp
    obtain ⟨k', v'⟩ := hd
    have htl : ∀ q ∈ tl, q.1 = q.2.label :=
      fun q hq => hl q (List.mem_cons_of_mem _ hq)
    by_cases hcase : k' = lab
    · simp [Day15.indexMapShiftRemove, hcase] at hp
      exact htl p hp
    · simp [Day15.indexMapShiftRemove, hcase] at hp
      rcases hp with hp | hp
      · subst hp
        exact hl (k', v') (List.mem_cons_self _ _)
      · exact ih htl p hp

/-- The simulation invariant between `Bucket` and `ListBucket` is preserved
by every operation sequence. -/
theorem applyBucket_sim (ops : List Day15.BOp) :
    ∀ (b : Day15.Bucket) (lb : Day15.ListBucket),
      (∀ p ∈ b.values, p.1 = p.2.label) →
      b.values.map Prod.snd = lb.values →
      (Day15.applyBucket b ops).values.map Prod.snd =
          (Day15.applyListBucket lb ops).values ∧
        (∀ p ∈ (Day15.applyBucket b ops).values, p.1 = p.2.label) := by
  induction ops with
  | nil => intro b lb h1 h2; exact ⟨h2, h1⟩
  | cons op rest ih =>
    intro b lb h1 h2
    cases op with
    | ins e =>
      show ((Day15.applyBucket (b.insert e) rest).values.map Prod.snd =
          (Day15.applyListBucket (lb.insert e) rest).values) ∧ _
      apply ih
      · exact indexMapInsert_labels e b.values h1
      · show (Day15.indexMapInsert b.values e.label e).map Prod.snd =
          Day15.listInsertGo lb.values e
        rw [indexMapInsert_snd e b.values h1, h2]
    | rem lab =>
      show ((Day15.applyBucket (b.remove lab) rest).values.map Prod.snd =
          (Day15.applyListBucket (lb.remove lab) rest).values) ∧ _
      apply ih
      · exact indexMapShiftRemove_labels lab b.values h1
      · show (Day15.indexMapShiftRemove b.values lab).map Prod.snd =
          Day15.listRemoveGo lb.values lab
        rw [indexMapShiftRemove_snd lab b.values h1, h2]

/-- Keys equal labels pointwise, so the key list is the label list of the
entry list. -/
theorem keys_eq_labels :
    ∀ (l : List (String × Day15.Entry)), (∀ p ∈ l, p.1 = p.2.label) →
      l.map Prod.fst = (l.map Prod.snd).map Day15.Entry.label := by
  intro l
  induction l with
  | nil => intro _; rfl
  | cons hd tl ih =>
    intro hl
    simp only [List.map_cons, List.cons.injEq]
    exact ⟨hl hd (List.mem_cons_self _ _),
      ih fun p hp => hl p (List.mem_cons_of_mem _ hp)⟩

/-- C8: for every finite operation sequence applied from the empty state,
the `FxIndexMap`-backed `Bucket` and the `VecDeque`-backed `ListBucket`
hold the same labels with the same focal values in the same order, so their
`focal_sum` results are equal. -/
theorem bucket_listbucket_equiv (ops : List Day15.BOp) :
    (Day15.applyBucket Day15.Bucket.empty ops).values.map Prod.snd =
      (Day15.applyListBucket Day15.ListBucket.empty ops).values ∧
    (Day15.applyBucket Day15.Bucket.empty ops).values.map Prod.fst =
      (Day15.applyListBucket Day15.ListBucket.empty ops).values.map
        Day15.Entry.label ∧
    (Day15.applyBucket Day15.Bucket.empty ops).focal_sum =
      (Day15.applyListBucket Day15.ListBucket.empty ops).focal_sum := by
  have h := applyBucket_sim ops Day15.Bucket.empty Day15.ListBucket.empty
    (by intro p hp; simp [Day15.Bucket.empty] at hp)
    (by simp [Day15.Bucket.empty, Day15.ListBucket.empty])
  refine ⟨h.1, ?_, ?_⟩
  · rw [keys_eq_labels _ h.2, h.1]
  · rw [Day15.Bucket.focal_sum, Day15.ListBucket.focal_sum, h.1]

/-- The hash fold stays below 256 from any accumulator below 256: every step
ends in `% 256`. -/
theorem hashFold_acc_lt (l : List Nat) :
    ∀ acc, acc < 256 →
      l.foldl (fun acc ch => ((acc + ch) * 17) % 256) acc < 256 := by
  induction l with
  | nil => intro acc h; simpa using h
  | cons c tl ih =>
    intro acc h
    rw [List.foldl_cons]
    exact ih _ (Nat.mod_lt _ (by omega))

/-- C9: every parsed instruction's `bucket` equals the
`((acc + byte) * 17) % 256` fold over the label's bytes, which is strictly
below 256; `HASHMap::default` has exactly 256 buckets, so the indexing in
`HASHMap::insert` and `HASHMap::remove` is always in bounds and never
panics. -/
theorem hashmap_bucket_in_bounds (labelBytes : List Nat) (op : Day15.Op) :
    (Day15.parse_instruction labelBytes op).bucket =
      Day15.hashFold labelBytes ∧
    Day15.hashFold labelBytes < 256 ∧
    Day15.HASHMap.default.buckets.length = 256 ∧
    (∀ hm : Day15.HASHMap, hm.buckets.length = 256 →
      ∀ (e : Day15.Entry) (label : String),
        (hm.insert (Day15.parse_instruction labelBytes op).bucket e).isSome ∧
        (hm.remove (Day15.parse_instruction labelBytes op).bucket
          label).isSome) := by
  have hlt : Day15.hashFold labelBytes < 256 :=
    hashFold_acc_lt labelBytes 0 (by omega)
  refine ⟨rfl, hlt, List.length_replicate 256 Day15.ListBucket.empty, ?_⟩
  intro hm h256 e label
  have hb : (Day15.parse_instruction labelBytes op).bucket <
      hm.buckets.length := by
    rw [h256]
    exact hlt
  constructor
  · rw [Day15.HASHMap.insert, dif_pos hb]
    rfl
  · rw [Day15.HASHMap.remove, dif_pos hb]
    rfl

/-- Witness for C9: inserting under label "rn" and removing under label "cm"
on the default map. -/
theorem hashmap_bucket_in_bounds_witness :
    (Day15.HASHMap.default.insert
      (Day15.parse_instruction [114, 110] (Day15.Op.assign 1)).bucket
      ⟨"rn", 1⟩).isSome ∧
    (Day15.HASHMap.default.remove
      (Day15.parse_instruction [99, 109] Day15.Op.remove).bucket
      "cm").isSome := by
  constructor
  · exact ((hashmap_bucket_in_bounds [114, 110] (Day15.Op.assign 1)).2.2.2
      Day15.HASHMap.default (List.length_replicate 256 Day15.ListBucket.empty)
      ⟨"rn", 1⟩ "cm").1
  · exact ((hashmap_bucket_in_bounds [99, 109] Day15.Op.remove).2.2.2
      Day15.HASHMap.default (List.length_replicate 256 Day15.ListBucket.empty)
      ⟨"rn", 1⟩ "cm").2

/-- `process` shortens a sequence by exactly one element. -/
theorem process_length (s : List Int) :
    (Day9.process s).length = s.length - 1 := by
  match s with
  | [] => rfl
  | [a] => rfl
  | a :: b :: rest =>
    have ih := process_length (b :: rest)
    simp only [Day9.process, List.length_cons] at ih ⊢
    omega

/-- `extrapolate` succeeds on every non-empty sequence: both the head and
the last element exist. -/
theorem extrapolate_isSome (s : List Int) (hs : s ≠ []) (d : Int × Int) :
    (Day9.extrapolate s d).isSome := by
  cases s with
  | nil => exact absurd rfl hs
  | cons a t =>
    have h1 : (a :: t).getLast?.isSome := by
      rw [List.getLast?_isSome]
      simp
    obtain ⟨x, hx⟩ := Option.isSome_iff_exists.mp h1
    simp [Day9.extrapolate, hx]

/-- `extrapolate_sequence` succeeds on every non-empty sequence. -/
theorem extrapolate_sequence_isSome (n : Nat) :
    ∀ s : List Int, s.length = n → s ≠ [] →
      (Day9.extrapolate_sequence s).isSome := by
  induction n using Nat.strong_induction_on with
  | _ n ih =>
    intro s hn hs
    unfold Day9.extrapolate_sequence
    show (if _ : ((Day9.process s).all fun v => decide (v = 0)) = true then
        Day9.extrapolate s (0, 0)
      else (Day9.extrapolate_sequence (Day9.process s)).bind
        fun e => Day9.extrapolate s e).isSome = true
    split
    · exact extrapolate_isSome s hs _
    · rename_i h
      have hne : Day9.process s ≠ [] := by
        intro hnil
        rw [hnil] at h
        simp at h
      have hlen : (Day9.process s).length < n := by
        have h1 := process_length s
        have h2 : s.length ≠ 0 := fun h0 => hs (List.length_eq_zero.mp h0)
        omega
      have hrec := ih (Day9.process s).length hlen (Day9.process s) rfl hne
      obtain ⟨e, he⟩ := Option.isSome_iff_exists.mp hrec
      rw [he]
      exact extrapolate_isSome s hs e

/-- C10: `process` shortens every sequence by exactly one element, so
`extrapolate_sequence` terminates (it is well-founded on the length, and in
Lean it is accepted as total); on a one-element sequence the difference list
is empty and the all-zero base case is taken; under non-emptiness the
`sequence[0]` and `sequence[len - 1]` accesses of `extrapolate` are in
bounds, so the recursion never panics; and a successful `separated_list1`
parse returns a non-empty list, guaranteeing that precondition for parsed
input. -/
theorem extrapolate_sequence_no_panic :
    (∀ s : List Int, (Day9.process s).length = s.length - 1) ∧
    (∀ a : Int, Day9.process [a] = [] ∧
      Day9.extrapolate_sequence [a] = Day9.extrapolate [a] (0, 0)) ∧
    (∀ s : List Int, s ≠ [] →
      (Day9.extrapolate s (0, 0)).isSome ∧
      (Day9.extrapolate_sequence s).isSome) ∧
    (∀ {α : Type} (sep : List Char → Day9.ParseResult Unit)
        (p : List Char → Day9.ParseResult α) (input : List Char)
        (res : List α) (rest : List Char),
      Day9.separated_list1 sep p input = some (res, rest) → res ≠ []) := by
  refine ⟨process_length, ?_, ?_, ?_⟩
  · intro a
    refine ⟨rfl, ?_⟩
    unfold Day9.extrapolate_sequence
    rfl
  · intro s hs
    exact ⟨extrapolate_isSome s hs (0, 0),
      extrapolate_sequence_isSome s.length s rfl hs⟩
  · intro α sep p input res rest h
    unfold Day9.separated_list1 at h
    cases hp : p input with
    | none => rw [hp] at h; exact absurd h (by simp)
    | some pr =>
      obtain ⟨a, r⟩ := pr
      rw [hp] at h
      have h1 : a :: (Day9.sepRest p sep r.length r).1 = res :=
        congrArg Prod.fst (Option.some.inj h)
      intro hres
      rw [hres] at h1
      exact List.cons_ne_nil a _ h1

/-- Witness for C10: a concrete non-empty sequence and a concrete successful
`separated_list1` parse. -/
theorem extrapolate_sequence_no_panic_witness :
    ([0, 3, 6, 9, 12, 15] : List Int) ≠ [] ∧
    (Day9.extrapolate_sequence [0, 3, 6, 9, 12, 15]).isSome ∧
    (['a', 'a'] : List Char) ≠ [] := by
  refine ⟨by decide, ?_, ?_⟩
  · exact (extrapolate_sequence_no_panic.2.2.1 [0, 3, 6, 9, 12, 15]
      (by decide)).2
  · exact extrapolate_sequence_no_panic.2.2.2 commaP (charP 'a')
      "a,a".data ['a', 'a'] [] rfl
